import Mathlib

/-!
Verification of the pgkons interactive terminal navigator.

The development shallowly embeds the navigation core of the repository:
the `Runner.Run` state-machine loop (cmd/pgkons/main.go), the menu
transition `selectState` and the static navigation tree (states file),
the list-picker glue `selecter`, the viewport sizing `selectSize`, the
footer-erase `overwritePrevLine`, the fuzzy-search predicates, and the
empty-result sentinel substitution in `Views` / `MaterializedViews`.

External collaborators (the promptui select session, the database, the
terminal) are modelled as explicit inputs: each interactive select
session consumes one `SelRes` outcome and each data-provider fetch
consumes one `ProvRes` outcome from an environment `Env`; the terminal
size query is an `Option` argument to `selectSize`.
-/

/-- Go error values that flow through the navigator, one constructor per
distinguishable error value of the program: `promptui.ErrInterrupt`
(user cancel), `promptui.ErrEOF`, `context.Canceled`, the package
sentinel `errFinished`, database/provider errors, and terminal
read/write failures. Distinct constructors model distinct Go error
values. -/
inductive Err where
  | interrupt
  | eof
  | canceled
  | finished
  | provider (msg : String)
  | ioFailure (msg : String)
deriving DecidableEq, Repr

/-- Outcome of one interactive promptui select session (`sel.Run()`):
either a chosen index or an error (cancel / IO). -/
inductive SelRes where
  | ok (i : Nat)
  | err (e : Err)
deriving DecidableEq, Repr

/-- Outcome of one data-provider fetch (`r.db.SelectContext`/`GetContext`). -/
inductive ProvRes where
  | ok
  | err (e : Err)
deriving DecidableEq, Repr

/-- The external environment a run consumes: a queue of select-session
outcomes and a queue of provider-fetch outcomes. -/
structure Env where
  sels : List SelRes
  provs : List ProvRes
deriving DecidableEq, Repr

/-- Names for every `StateFn` value reachable in the program's static
navigation tree (states file): `startState`, its menu descendants and
every leaf action closure. -/
inductive StName where
  | start
  | explore
  | playground
  | schemasMenu
  | schemasAll
  | schemasUserCreated
  | tables
  | viewsMenu
  | viewsAll
  | viewsMaterialized
  | statsMenu
  | tablesBySchema
  | tablesBySize
  | tablesBySizeWithIndex
  | tablesByRows
  | tablesEmpty
  | tablesGroupByRows
  | columnsFrequency
  | version
deriving DecidableEq, Repr

/-- Children of each menu state, exactly as listed in the source tree:
`startStates = [exploreState, playgroundState]`, the `Where too?` menu,
the `Schema Options` menu, the `Views` menu and the 8-entry `Stats`
menu. `none` for non-menu states. -/
def menuChildren : StName → Option (List StName)
  | StName.start => some [StName.explore, StName.playground]
  | StName.explore => some [StName.schemasMenu, StName.tables, StName.viewsMenu, StName.statsMenu]
  | StName.schemasMenu => some [StName.schemasAll, StName.schemasUserCreated]
  | StName.viewsMenu => some [StName.viewsAll, StName.viewsMaterialized]
  | StName.statsMenu =>
      some [StName.tablesBySchema, StName.tablesBySize, StName.tablesBySizeWithIndex,
            StName.tablesByRows, StName.tablesEmpty, StName.tablesGroupByRows,
            StName.columnsFrequency, StName.version]
  | _ => none

/-- A state is an Action when it is not a menu and not the no-op
`playgroundState` (which returns `(nil, nil)` without touching the
database or the selector). -/
def isAction (s : StName) : Bool :=
  (menuChildren s).isNone && s != StName.playground

/-- Source constant `escPrevLine = "\033[F"`. -/
def escPrevLine : String := "\x1b[F"

/-- Source constant `clearLine = "2K"`. -/
def clearLine : String := "2K"

/-- Source constant `carriageReturn = "\r"`. -/
def carriageReturn : String := "\r"

/-- The bytes `overwritePrevLine()` prints: the concatenation of the
three constants, emitted by a single `fmt.Print`. -/
def overwritePrevLine : String := escPrevLine ++ clearLine ++ carriageReturn

/-- Result of one transition `fn(ctx, r)`: the next `StateFn` (or none),
the returned error (or none), the environment left over, and the
control strings the transition printed via `overwritePrevLine`. -/
structure StepRes where
  next : Option StName
  err : Option Err
  env : Env
  out : List String
deriving DecidableEq, Repr

/-- Models `selecter` (main.go): run one promptui select session with
outcome `sr`, then unconditionally call `overwritePrevLine()`, and
return the session's error. Yields the returned error together with the
control strings printed after the session. -/
def selecterResult (sr : SelRes) : Option Err × List String :=
  match sr with
  | SelRes.ok _ => (none, [overwritePrevLine])
  | SelRes.err e => (some e, [overwritePrevLine])

/-- Models `selectState` (states file) on the child list of a menu:
if the child list is empty, return `(nil, nil)` before building any
select session; otherwise run one select session; on session error
return `(nil, err)` without erasing; on success erase once and return
`children[i].Fn`. An out-of-range index (which promptui never yields)
leaves the machine stuck (`none`). -/
def stepMenu (children : List StName) (env : Env) : Option StepRes :=
  if children.isEmpty then some ⟨none, none, env, []⟩
  else
    match env.sels with
    | [] => none
    | SelRes.err e :: rest => some ⟨none, some e, ⟨rest, env.provs⟩, []⟩
    | SelRes.ok i :: rest =>
      if h : i < children.length then
        some ⟨some (children.get ⟨i, h⟩), none, ⟨rest, env.provs⟩, [overwritePrevLine]⟩
      else none

/-- Models every leaf action method of `Runner` (`Schemas`, `Tables`,
`Views`, ..., `Version`): fetch from the provider; on fetch error
return `(nil, err)`; on success run `selecter` and return
`(nil, selecterErr)`. The next state is always `nil`. -/
def stepAction (env : Env) : Option StepRes :=
  match env.provs with
  | [] => none
  | ProvRes.err e :: prest => some ⟨none, some e, ⟨env.sels, prest⟩, []⟩
  | ProvRes.ok :: prest =>
    match env.sels with
    | [] => none
    | sr :: srest =>
      some ⟨none, (selecterResult sr).1, ⟨srest, prest⟩, (selecterResult sr).2⟩

/-- One invocation of the current `StateFn`: menu states dispatch to
`selectState` over their child list, `playgroundState` returns
`(nil, nil)`, and every other state is a leaf action. -/
def step (s : StName) (env : Env) : Option StepRes :=
  match menuChildren s with
  | some children => stepMenu children env
  | none =>
    if s = StName.playground then some ⟨none, none, env, []⟩
    else stepAction env

/-- The loop body of `Runner.Run` (main.go):
`for fn := startState.Fn; fn != nil; { fn, err = fn(ctx, r); if fn == nil && err == nil { fn = startState.Fn } }; return err`.
Fuel bounds the number of iterations; `none` means the loop has not
returned within the fuel (or is blocked waiting on the environment);
`some e` means the loop returned the Go error value `e`. -/
def runLoop : Nat → StName → Env → Option (Option Err)
  | 0, _, _ => none
  | Nat.succ n, s, env =>
    match step s env with
    | none => none
    | some r =>
      match r.next, r.err with
      | some s', _ => runLoop n s' r.env
      | none, none => runLoop n StName.start r.env
      | none, some e => some (some e)

/-- The same loop instrumented with the list of states whose transition
the loop invokes (in order) and the control strings printed, alongside
the returned error. -/
def runTrace : Nat → StName → Env → List StName × List String × Option (Option Err)
  | 0, _, _ => ([], [], none)
  | Nat.succ n, s, env =>
    match step s env with
    | none => ([s], [], none)
    | some r =>
      match r.next, r.err with
      | some s', _ =>
        let res := runTrace n s' r.env
        (s :: res.1, r.out ++ res.2.1, res.2.2)
      | none, none =>
        let res := runTrace n StName.start r.env
        (s :: res.1, r.out ++ res.2.1, res.2.2)
      | none, some e => ([s], r.out, some (some e))

/-- Models `Runner.Run(ctx, debug)`: the loop starting at
`startState.Fn`. The `debug` argument is part of the Go signature; the
body never reads it. Returns the instrumented trace. -/
def Run (fuel : Nat) (env : Env) (debug : Bool) : List StName × List String × Option (Option Err) :=
  runTrace fuel StName.start env

/-- Environment for spec Scenario A: the user picks `Explore`, then
`Schemas`, then `All`; the schemas provider succeeds and the user picks
a row. -/
def envScenarioA : Env :=
  ⟨[SelRes.ok 0, SelRes.ok 0, SelRes.ok 0, SelRes.ok 0], [ProvRes.ok]⟩

/-- Models Go `strings.ToLower` (per-rune lowercasing), applied to the
character list of the string. -/
def goToLower (s : String) : String :=
  ⟨s.data.map Char.toLower⟩

/-- Models Go `strings.Replace(s, " ", "", -1)`: remove every space
character. -/
def goReplaceSpace (s : String) : String :=
  ⟨s.data.filter (fun c => c ≠ ' ')⟩

/-- Is `needle` a prefix of `hay`? Recursion on both character lists. -/
def isPrefixAux : List Char → List Char → Bool
  | [], _ => true
  | _ :: _, [] => false
  | a :: as, b :: bs => a == b && isPrefixAux as bs

/-- Is `needle` a contiguous substring of `hay`? -/
def containsAux : List Char → List Char → Bool
  | [], needle => needle.isEmpty
  | c :: t, needle => isPrefixAux needle (c :: t) || containsAux t needle

/-- Models Go `strings.Contains(s, sub)`: substring containment. -/
def goContains (s sub : String) : Bool :=
  containsAux s.data sub.data

/-- The searchable part of the source `state` struct: its display name
(the transition function is modelled separately by `StName`). -/
structure state where
  Name : String
deriving DecidableEq, Repr

/-- The searcher closure built inside `selectState`: lower-case and
strip spaces from both the entry's `Name` and the query, then test
substring containment. promptui only calls it with in-range indices,
so the index is a `Fin`. -/
def selectStateSearcher (states : List state) (input : String) (index : Fin states.length) : Bool :=
  let name := goReplaceSpace (goToLower (states.get index).Name)
  let inp := goReplaceSpace (goToLower input)
  goContains name inp

/-- The `schema` row struct of the source. -/
structure schema where
  Name : String
  Owner : String
  CatalogName : String
deriving DecidableEq, Repr

/-- The searcher closure built inside `Runner.Schemas`: normalize the
schema's `Name` and the query the same way, then test containment. -/
def schemasSearcher (schemas : List schema) (input : String) (index : Fin schemas.length) : Bool :=
  let name := goReplaceSpace (goToLower (schemas.get index).Name)
  let inp := goReplaceSpace (goToLower input)
  goContains name inp

/-- The `Stats` menu entries, names exactly as in the source tree. -/
def statStates : List state :=
  [⟨"Table Count Per Schema"⟩, ⟨"Tables By Size"⟩, ⟨"Tables By Size With Indexes"⟩,
   ⟨"Table Row Counts"⟩, ⟨"Empty Tables"⟩, ⟨"Tables Grouped By Rows"⟩,
   ⟨"Column Name Frequencies"⟩, ⟨"Postgres Version"⟩]

/-- The fields of `promptui.SelectTemplates` the program sets. -/
structure SelectTemplates where
  label : String
  active : String
  inactive : String
  selected : String
  details : String
deriving DecidableEq, Repr

/-- Models `strings.Count(s, "\n")`: the number of newline characters. -/
def countNL (s : String) : Nat :=
  s.data.count '\n'

/-- Models `selectSize` (main.go): the terminal size query is lifted to
the `term` argument (`none` when `terminalSize()` errors, otherwise
`some (width, height)`); if the query errored, or no template was
given, or `height < 4`, return 1; otherwise return
`height - 4 - strings.Count(templates.Details, "\n")` with no lower
clamp. -/
def selectSize (term : Option (Int × Int)) (templates : Option SelectTemplates) : Int :=
  match term, templates with
  | none, _ => 1
  | some _, none => 1
  | some (_, height), some t =>
    if height < 4 then 1 else height - 4 - (countNL t.details : Int)

/-- A template whose `details` is empty (as for the many actions that
set no `Details` field). -/
def emptyTemplates : SelectTemplates :=
  ⟨"", "", "", "", ""⟩

/-- The `promptui.SelectTemplates` literal of `Runner.Schemas`; its
`Details` string contains four newline characters. Literal braces of
the Go template syntax are written with escapes. -/
def schemasTemplates : SelectTemplates where
  label := "\x7b\x7b . \x7d\x7d"
  active := "» \x7b\x7b .Name | bold|  cyan \x7d\x7d (\x7b\x7b .Owner | bold | red \x7d\x7d)"
  inactive := "  \x7b\x7b .Name | cyan \x7d\x7d (\x7b\x7b .Owner | red \x7d\x7d)"
  selected := ""
  details := "\n--------- Schema ----------\n\x7b\x7b \x22Name:\x22 | faint \x7d\x7d\t\x7b\x7b .Name \x7d\x7d\n\x7b\x7b \x22Owner:\x22 | faint \x7d\x7d\t\x7b\x7b .Owner \x7d\x7d\n\x7b\x7b \x22Catalog name:\x22 | faint \x7d\x7d\t\x7b\x7b .CatalogName \x7d\x7d"

/-- The `view` row struct of the source. -/
structure view where
  Name : String
  Definition : String
  IsPopulated : Bool
  Owner : String
  ViewSchema : String
  ReferencedTableSchema : String
  ReferencedTableName : String
deriving DecidableEq, Repr

/-- The sentinel appended by `Views` / `MaterializedViews` when the
provider returns zero rows: `view{ViewSchema: "back"}`, all other
fields at their Go zero values. -/
def backView : view :=
  ⟨"", "", false, "", "back", "", ""⟩

/-- The item list `Runner.Views` hands to `selecter`, as a function of
the fetched rows: `if len(views) == 0 { views = append(views, view{ViewSchema: "back"}) }`. -/
def viewsItems (views : List view) : List view :=
  if views.length = 0 then views ++ [backView] else views

/-- The item list `Runner.MaterializedViews` hands to `selecter`; the
same zero-row guard as `Views`. -/
def matViewsItems (views : List view) : List view :=
  if views.length = 0 then views ++ [backView] else views

/-- The item list `Runner.Schemas` hands to `selecter`: the fetched
rows unchanged — this action has no zero-row guard. -/
def schemasItems (schemas : List schema) : List schema :=
  schemas

/-- The `pgTable` row struct of the source. -/
structure pgTable where
  Catalog : String
  Name : String
  Owner : String
  Schema : String
  Size : String
deriving DecidableEq, Repr

/-- The item list `Runner.Tables` hands to `selecter`: the fetched rows
unchanged — this action has no zero-row guard either. -/
def tablesItems (tables : List pgTable) : List pgTable :=
  tables

/-- The loop of `Runner.Run` can move from configuration `(s, env)` to
configuration `(t, envt)`: either they are equal, or a step yields a
next state, or a step yields `(nil, nil)` and the loop bounces to
`startState.Fn`. -/
inductive Reaches : StName → Env → StName → Env → Prop where
  | refl : ∀ s env, Reaches s env s env
  | stepNext : ∀ s env r s' t envt, step s env = some r → r.next = some s' →
      Reaches s' r.env t envt → Reaches s env t envt
  | stepBounce : ∀ s env r t envt, step s env = some r → r.next = none → r.err = none →
      Reaches StName.start r.env t envt → Reaches s env t envt

theorem containsAux_nil (l : List Char) : containsAux l [] = true := by
  cases l <;> rfl

theorem stepMenu_err_next_none (cs : List StName) (sels : List SelRes) (provs : List ProvRes)
    (r : StepRes) (e : Err) (hs : stepMenu cs ⟨sels, provs⟩ = some r) (he : r.err = some e) :
    r.next = none := by
  unfold stepMenu at hs
  by_cases hcs : cs.isEmpty = true
  · rw [if_pos hcs] at hs
    cases hs
    simp at he
  · rw [if_neg hcs] at hs
    dsimp only at hs
    cases sels with
    | nil => cases hs
    | cons sr rest =>
      cases sr with
      | err e' => cases hs; rfl
      | ok i =>
        dsimp only at hs
        by_cases hi : i < cs.length
        · rw [dif_pos hi] at hs
          cases hs
          simp at he
        · rw [dif_neg hi] at hs
          cases hs

theorem stepAction_next_none (sels : List SelRes) (provs : List ProvRes) (r : StepRes)
    (hs : stepAction ⟨sels, provs⟩ = some r) : r.next = none := by
  unfold stepAction at hs
  cases provs with
  | nil => cases hs
  | cons pr prest =>
    cases pr with
    | err e => cases hs; rfl
    | ok =>
      cases sels with
      | nil => cases hs
      | cons sr srest => cases hs; rfl

/-- Every transition of the program that returns a non-nil error
returns a nil next state. -/
theorem step_err_next_none (s : StName) (env : Env) (r : StepRes) (e : Err)
    (hs : step s env = some r) (he : r.err = some e) : r.next = none := by
  obtain ⟨sels, provs⟩ := env
  unfold step at hs
  cases hm : menuChildren s with
  | some cs =>
    rw [hm] at hs
    exact stepMenu_err_next_none cs sels provs r e hs he
  | none =>
    rw [hm] at hs
    by_cases hp : s = StName.playground
    · rw [if_pos hp] at hs
      cases hs
      simp at he
    · rw [if_neg hp] at hs
      exact stepAction_next_none sels provs r hs

/-- If the current transition returns a non-nil error, the loop stops
at once and returns exactly that error. -/
theorem runLoop_stops_on_err (fuel : Nat) (s : StName) (env : Env) (r : StepRes) (e : Err)
    (hs : step s env = some r) (he : r.err = some e) :
    runLoop (fuel + 1) s env = some (some e) := by
  have hn := step_err_next_none s env r e hs he
  obtain ⟨next, err, env', out⟩ := r
  change next = none at hn
  change err = some e at he
  subst hn
  subst he
  simp only [runLoop, hs]

/-- If the current transition returns `(nil, nil)`, the loop continues
from `startState.Fn`. -/
theorem runLoop_bounce (fuel : Nat) (s : StName) (env : Env) (r : StepRes)
    (hs : step s env = some r) (hn : r.next = none) (he : r.err = none) :
    runLoop (fuel + 1) s env = runLoop fuel StName.start r.env := by
  obtain ⟨next, err, env', out⟩ := r
  change next = none at hn
  change err = none at he
  subst hn
  subst he
  simp only [runLoop, hs]

/-- The instrumented loop returns the same error as the plain loop. -/
theorem runTrace_result (fuel : Nat) : ∀ (s : StName) (env : Env),
    (runTrace fuel s env).2.2 = runLoop fuel s env := by
  induction fuel with
  | zero => intro s env; rfl
  | succ n ih =>
    intro s env
    simp only [runTrace, runLoop]
    cases hs : step s env with
    | none => rfl
    | some r =>
      obtain ⟨next, err, env', out⟩ := r
      cases next with
      | some s' => simpa using ih s' env'
      | none =>
        cases err with
        | none => simpa using ih StName.start env'
        | some e => rfl

/-- Whenever the loop returns, it has reached a configuration whose
transition returned `(nil, some err)`, and the loop's return value is
exactly that error. -/
theorem runLoop_some_reaches (fuel : Nat) : ∀ (s : StName) (env : Env) (e : Option Err),
    runLoop fuel s env = some e →
    ∃ (err : Err) (t : StName) (envt : Env) (r : StepRes),
      e = some err ∧ Reaches s env t envt ∧ step t envt = some r ∧
      r.next = none ∧ r.err = some err := by
  induction fuel with
  | zero => intro s env e h; simp [runLoop] at h
  | succ n ih =>
    intro s env e h
    simp only [runLoop] at h
    cases hs : step s env with
    | none => rw [hs] at h; cases h
    | some r =>
      rw [hs] at h
      obtain ⟨next, err, env', out⟩ := r
      cases next with
      | some s' =>
        obtain ⟨e₀, t, envt, r₀, he₀, hre, hst, hn₀, he₁⟩ := ih s' env' e h
        exact ⟨e₀, t, envt, r₀, he₀,
          Reaches.stepNext s env _ s' t envt hs rfl hre, hst, hn₀, he₁⟩
      | none =>
        cases err with
        | none =>
          obtain ⟨e₀, t, envt, r₀, he₀, hre, hst, hn₀, he₁⟩ := ih StName.start env' e h
          exact ⟨e₀, t, envt, r₀, he₀,
            Reaches.stepBounce s env _ t envt hs rfl rfl hre, hst, hn₀, he₁⟩
        | some e' =>
          cases h
          exact ⟨e', s, env, _, rfl, Reaches.refl s env, hs, rfl, rfl⟩

theorem filter_map_filter_space (l : List Char) :
    ((l.filter (fun c => c ≠ ' ')).map Char.toLower).filter (fun c => c ≠ ' ') =
      (l.map Char.toLower).filter (fun c => c ≠ ' ') := by
  induction l with
  | nil => rfl
  | cons c t ih =>
    by_cases hc : c = ' '
    · subst hc
      have e1 : ((' ' :: t).filter (fun c => c ≠ ' ')) = t.filter (fun c => c ≠ ' ') := by
        simp
      have e2 : List.map Char.toLower (' ' :: t) = ' ' :: List.map Char.toLower t := by
        rw [List.map_cons, show Char.toLower ' ' = ' ' from by decide]
      have e3 : ((' ' :: List.map Char.toLower t).filter (fun c => c ≠ ' '))
          = (List.map Char.toLower t).filter (fun c => c ≠ ' ') := by
        simp
      rw [e1, e2, e3]
      exact ih
    · have e1 : ((c :: t).filter (fun x => x ≠ ' ')) = c :: t.filter (fun x => x ≠ ' ') := by
        simp [hc]
      rw [e1, List.map_cons, List.map_cons]
      by_cases h2 : Char.toLower c = ' '
      · have e3 : ∀ X : List Char,
            ((Char.toLower c :: X).filter (fun x => x ≠ ' ')) = X.filter (fun x => x ≠ ' ') := by
          intro X
          simp [h2]
        rw [e3, e3]
        exact ih
      · have e3 : ∀ X : List Char,
            ((Char.toLower c :: X).filter (fun x => x ≠ ' '))
              = Char.toLower c :: X.filter (fun x => x ≠ ' ') := by
          intro X
          simp [h2]
        rw [e3, e3, ih]

/-- C1: `Runner.Run` terminates exactly when some transition returns a
non-nil error and returns that error unchanged. First conjunct:
whenever the loop returns a value, the run reached a configuration
whose transition returned a nil next state and a non-nil error, and the
loop's return value is exactly that error (so it is non-nil). Second
conjunct: as soon as any transition of this program returns a non-nil
error, the loop stops at that very iteration — no retry, no swallowing
— and returns the error unchanged. -/
theorem c1_run_terminates_exactly_on_error :
    (∀ (fuel : Nat) (s : StName) (env : Env) (e : Option Err),
        runLoop fuel s env = some e →
        ∃ (err : Err) (t : StName) (envt : Env) (r : StepRes),
          e = some err ∧ Reaches s env t envt ∧ step t envt = some r ∧
          r.next = none ∧ r.err = some err) ∧
    (∀ (fuel : Nat) (s : StName) (env : Env) (r : StepRes) (e : Err),
        step s env = some r → r.err = some e →
        r.next = none ∧ runLoop (fuel + 1) s env = some (some e)) := by
  constructor
  · exact runLoop_some_reaches
  · intro fuel s env r e hs he
    exact ⟨step_err_next_none s env r e hs he, runLoop_stops_on_err fuel s env r e hs he⟩

/-- Witness for C1: a run whose first select session is cancelled
terminates returning exactly that cancellation error. -/
theorem c1_run_terminates_exactly_on_error_witness :
    ∃ (err : Err) (t : StName) (envt : Env) (r : StepRes),
      (some Err.interrupt : Option Err) = some err ∧
      Reaches StName.start ⟨[SelRes.err Err.interrupt], []⟩ t envt ∧
      step t envt = some r ∧ r.next = none ∧ r.err = some err :=
  c1_run_terminates_exactly_on_error.1 1 StName.start ⟨[SelRes.err Err.interrupt], []⟩
    (some Err.interrupt) (by decide)

/-- C2: every Action transition returns a nil next state; the loop
treats a `(nil, nil)` result as bounce-to-root; and on the concrete
path Explore → Schemas → All with a successful provider and selection,
the state presented after the action is the root menu. -/
theorem c2_action_nil_next_and_bounce_to_root :
    (∀ (s : StName) (env : Env) (r : StepRes),
        isAction s = true → step s env = some r → r.next = none) ∧
    (∀ (fuel : Nat) (s : StName) (env : Env) (r : StepRes),
        step s env = some r → r.next = none → r.err = none →
        runLoop (fuel + 1) s env = runLoop fuel StName.start r.env) ∧
    (Run 5 envScenarioA true).1 =
      [StName.start, StName.explore, StName.schemasMenu, StName.schemasAll, StName.start] := by
  refine ⟨?_, ?_, by decide⟩
  · intro s env r ha hs
    obtain ⟨sels, provs⟩ := env
    cases s <;> first
      | exact absurd ha (by decide)
      | exact stepAction_next_none sels provs r hs
  · intro fuel s env r hs hn he
    exact runLoop_bounce fuel s env r hs hn he

/-- Witness for C2: the `Schemas → All` action with a failing provider
returns a nil next state. -/
theorem c2_action_nil_next_and_bounce_to_root_witness :
    (⟨none, some (Err.provider "boom"), ⟨[], []⟩, []⟩ : StepRes).next = none :=
  c2_action_nil_next_and_bounce_to_root.1 StName.schemasAll
    ⟨[], [ProvRes.err (Err.provider "boom")]⟩
    ⟨none, some (Err.provider "boom"), ⟨[], []⟩, []⟩ (by decide) (by decide)

/-- Counterexample for C3: with a readable terminal of 4 rows and a
template with an empty details block, the code computes
`4 - 4 - 0 = 0`, not `max 1 (4 - 4 - 0) = 1`: there is no lower clamp
in the non-degenerate branch. -/
theorem c3_counterexample :
    selectSize (some (80, 4)) (some emptyTemplates) = 0 ∧
    max 1 ((4 : Int) - 4 - (countNL emptyTemplates.details : Int)) = 1 ∧
    selectSize (some (80, 4)) (some emptyTemplates) ≠
      max 1 ((4 : Int) - 4 - (countNL emptyTemplates.details : Int)) := by
  exact ⟨by decide, by decide, by decide⟩

/-- C3 (amended): the viewport height is 1 whenever the terminal size
cannot be read, no template is given, or rows < 4; otherwise it is
`rows - 4 - count of newline characters in template.details` with no
lower clamp (it can be ≤ 0). In particular rows 2 with no detail lines
yields 1, and rows 20 with the 4-newline Schemas details yields 12. -/
theorem c3_selectSize_amended :
    (∀ t : Option SelectTemplates, selectSize none t = 1) ∧
    (∀ wh : Int × Int, selectSize (some wh) none = 1) ∧
    (∀ (w h : Int) (t : SelectTemplates), h < 4 → selectSize (some (w, h)) (some t) = 1) ∧
    (∀ (w h : Int) (t : SelectTemplates), 4 ≤ h →
        selectSize (some (w, h)) (some t) = h - 4 - (countNL t.details : Int)) ∧
    selectSize (some (80, 2)) (some emptyTemplates) = 1 ∧
    selectSize (some (80, 20)) (some schemasTemplates) = 12 := by
  refine ⟨?_, ?_, ?_, ?_, by decide, by decide⟩
  · intro t; cases t <;> rfl
  · intro wh; obtain ⟨w, h⟩ := wh; rfl
  · intro w h t hlt
    unfold selectSize
    dsimp only
    rw [if_pos hlt]
  · intro w h t hge
    unfold selectSize
    dsimp only
    rw [if_neg (not_lt.mpr hge)]

/-- Witness for C3 (amended): the 20-row, 4-detail-line instance. -/
theorem c3_selectSize_amended_witness :
    selectSize (some (80, 20)) (some schemasTemplates) =
      20 - 4 - (countNL schemasTemplates.details : Int) :=
  c3_selectSize_amended.2.2.2.1 80 20 schemasTemplates (by decide)

/-- Counterexample for C4: the `Schemas` action has no zero-row guard —
with a provider returning zero rows it hands `selecter` the empty list,
not a single sentinel item. -/
theorem c4_counterexample :
    schemasItems ([] : List schema) = [] ∧ (schemasItems ([] : List schema)).length ≠ 1 :=
  ⟨rfl, by decide⟩

/-- C4 (amended): only the `Views` and `MaterializedViews` actions
substitute exactly one sentinel item (`view{ViewSchema: "back"}`) when
the provider returns zero rows; with a non-empty fetch they pass the
rows through unchanged, and the other actions (`Schemas`, `Tables`,
...) always pass the fetched list through unchanged, empty or not. -/
theorem c4_sentinel_only_views_amended :
    viewsItems [] = [backView] ∧ matViewsItems [] = [backView] ∧
    (∀ vs : List view, vs ≠ [] → viewsItems vs = vs) ∧
    (∀ vs : List view, vs ≠ [] → matViewsItems vs = vs) ∧
    (∀ ss : List schema, schemasItems ss = ss) ∧
    (∀ ts : List pgTable, tablesItems ts = ts) := by
  refine ⟨rfl, rfl, ?_, ?_, fun ss => rfl, fun ts => rfl⟩
  · intro vs hvs
    unfold viewsItems
    rw [if_neg (fun h => hvs (List.length_eq_zero.mp h))]
  · intro vs hvs
    unfold matViewsItems
    rw [if_neg (fun h => hvs (List.length_eq_zero.mp h))]

/-- Witness for C4 (amended): a non-empty views fetch passes through. -/
theorem c4_sentinel_only_views_amended_witness :
    viewsItems [backView] = [backView] :=
  c4_sentinel_only_views_amended.2.2.1 [backView] (by decide)

/-- C5: `selectState` on an empty child list returns `(nil, nil)` — the
bounce-to-root signal — leaving the environment untouched (no select
session is consumed, so the Selector is never invoked on an empty list)
and printing nothing. -/
theorem c5_empty_menu_resolves_to_bounce :
    ∀ env : Env, stepMenu [] env = some ⟨none, none, env, []⟩ :=
  fun _ => rfl

/-- Counterexample for C6: a menu select session that ends in an error
(here a user cancel on the root menu) performs zero erases, not exactly
one — `selectState` returns before its `overwritePrevLine()` call when
`sel.Run` errors. -/
theorem c6_counterexample :
    stepMenu [StName.explore, StName.playground] ⟨[SelRes.err Err.interrupt], []⟩ =
      some ⟨none, some Err.interrupt, ⟨[], []⟩, []⟩ ∧
    ([] : List String) ≠ [overwritePrevLine] :=
  ⟨by decide, by decide⟩

/-- C6 (amended): `selecter` erases exactly the one footer line once
per call regardless of outcome, emitting the source's
`escPrevLine ++ clearLine ++ carriageReturn` sequence; `selectState`
erases exactly once on success but zero times when the select session
returns an error. -/
theorem c6_erase_amended :
    (∀ sr : SelRes, (selecterResult sr).2 = [overwritePrevLine]) ∧
    (∀ (cs : List StName) (env : Env) (r : StepRes),
        stepMenu cs env = some r → r.err = none → cs ≠ [] → r.out = [overwritePrevLine]) ∧
    (∀ (cs : List StName) (env : Env) (r : StepRes) (e : Err),
        stepMenu cs env = some r → r.err = some e → r.out = []) ∧
    overwritePrevLine = escPrevLine ++ clearLine ++ carriageReturn := by
  refine ⟨?_, ?_, ?_, rfl⟩
  · intro sr; cases sr <;> rfl
  · intro cs env r hs he hcs
    obtain ⟨sels, provs⟩ := env
    unfold stepMenu at hs
    rw [if_neg (by simpa using hcs)] at hs
    dsimp only at hs
    cases sels with
    | nil => cases hs
    | cons sr rest =>
      cases sr with
      | err e' => cases hs; simp at he
      | ok i =>
        dsimp only at hs
        by_cases hi : i < cs.length
        · rw [dif_pos hi] at hs; cases hs; rfl
        · rw [dif_neg hi] at hs; cases hs
  · intro cs env r e hs he
    obtain ⟨sels, provs⟩ := env
    unfold stepMenu at hs
    by_cases hcs : cs.isEmpty = true
    · rw [if_pos hcs] at hs; cases hs; simp at he
    · rw [if_neg hcs] at hs
      dsimp only at hs
      cases sels with
      | nil => cases hs
      | cons sr rest =>
        cases sr with
        | err e' => cases hs; rfl
        | ok i =>
          dsimp only at hs
          by_cases hi : i < cs.length
          · rw [dif_pos hi] at hs; cases hs; simp at he
          · rw [dif_neg hi] at hs; cases hs

/-- Witness for C6 (amended): a successful root-menu selection erases
exactly once. -/
theorem c6_erase_amended_witness :
    (⟨some StName.explore, none, ⟨[], []⟩, [overwritePrevLine]⟩ : StepRes).out
      = [overwritePrevLine] :=
  c6_erase_amended.2.1 [StName.explore, StName.playground] ⟨[SelRes.ok 0], []⟩
    ⟨some StName.explore, none, ⟨[], []⟩, [overwritePrevLine]⟩ (by decide) rfl (by decide)

/-- C7: the searchers of `selectState` and of `Runner.Schemas` return
true on the empty query for every item list and every index: the empty
query matches everything. -/
theorem c7_empty_query_matches_everything :
    (∀ (states : List state) (i : Fin states.length), selectStateSearcher states "" i = true) ∧
    (∀ (ss : List schema) (i : Fin ss.length), schemasSearcher ss "" i = true) := by
  constructor
  · intro states i
    exact containsAux_nil _
  · intro ss i
    exact containsAux_nil _

/-- C8: the searcher's verdict is unchanged when all spaces are removed
from the query (both operands are lower-cased and space-stripped before
the containment test); in particular the `Stats` entry
"Table Count Per Schema" matches both "tablecount" and
"TABLE COUNT PER SCHEMA". -/
theorem c8_whitespace_stripped_query_still_matches :
    (∀ (states : List state) (q : String) (i : Fin states.length),
        selectStateSearcher states (goReplaceSpace q) i = selectStateSearcher states q i) ∧
    selectStateSearcher statStates "tablecount" ⟨0, by decide⟩ = true ∧
    selectStateSearcher statStates "TABLE COUNT PER SCHEMA" ⟨0, by decide⟩ = true := by
  refine ⟨?_, by decide, by decide⟩
  intro states q i
  have key : goReplaceSpace (goToLower (goReplaceSpace q)) = goReplaceSpace (goToLower q) := by
    unfold goReplaceSpace goToLower
    congr 1
    exact filter_map_filter_space q.data
  simp only [selectStateSearcher]
  rw [key]

/-- C9: the user-cancellation error (`promptui.ErrInterrupt`) is a
distinct value from every other error kind — provider errors, terminal
IO errors, `context.Canceled`, `errFinished`, EOF — and it flows
unchanged through `selecter` and out of the `Run` loop. -/
theorem c9_cancel_distinguishable :
    (∀ msg : String, Err.interrupt ≠ Err.provider msg) ∧
    (∀ msg : String, Err.interrupt ≠ Err.ioFailure msg) ∧
    Err.interrupt ≠ Err.canceled ∧ Err.interrupt ≠ Err.finished ∧ Err.interrupt ≠ Err.eof ∧
    (selecterResult (SelRes.err Err.interrupt)).1 = some Err.interrupt ∧
    (∀ (fuel : Nat) (s : StName) (env : Env) (r : StepRes),
        step s env = some r → r.err = some Err.interrupt →
        runLoop (fuel + 1) s env = some (some Err.interrupt)) := by
  refine ⟨fun msg => by simp, fun msg => by simp, by decide, by decide, by decide, rfl, ?_⟩
  intro fuel s env r hs he
  exact runLoop_stops_on_err fuel s env r Err.interrupt hs he

/-- Witness for C9: a cancelled root-menu session makes the loop return
the interrupt error itself. -/
theorem c9_cancel_distinguishable_witness :
    runLoop (0 + 1) StName.start ⟨[SelRes.err Err.interrupt], []⟩ = some (some Err.interrupt) :=
  c9_cancel_distinguishable.2.2.2.2.2.2 0 StName.start ⟨[SelRes.err Err.interrupt], []⟩
    ⟨none, some Err.interrupt, ⟨[], []⟩, []⟩ (by decide) rfl

/-- C10: `Run` never consults its `debug` argument — for every fuel and
environment the visited states, the printed control strings and the
returned error are identical for `debug = true` and `debug = false`
(and any two values). -/
theorem c10_run_independent_of_debug :
    ∀ (fuel : Nat) (env : Env) (d₁ d₂ : Bool), Run fuel env d₁ = Run fuel env d₂ :=
  fun _ _ _ _ => rfl
